import Mathlib

/-!
# Verification of the wumn data-access layer

A shallow embedding, in Lean 4, of the parts of the `wumn` crate that the
specification's claims speak about:

* the platform resolver (`src/src/platform.rs`, `impl TryFrom<&str> for Platform`),
  together with a model of the scheme-extraction behaviour of the external
  `url` crate's `Url::parse` (WHATWG URL standard: a scheme is an ASCII-alpha
  character followed by ASCII alphanumerics / `+` / `-` / `.` up to the first
  `:`, and is normalised to ASCII lower case by the parser; an input without a
  valid scheme prefix fails to parse);
* the manager entry points (`src/src/db_manager.rs`, `DbManager::db/em/dm`);
* the derived `ToTableName` impl produced by the code generator
  (`src/codegen/src/table_derive.rs`, `impl_to_table_name`);
* the dao crate's value model, row representation (`Dao`), `Rows` draining and
  the `ToDao`/`FromDao` conversion contracts.  The dao crate's module files are
  not part of the visible sources (only their declarations in
  `src/dao/src/lib.rs` are), so those definitions are modelled from the
  specification; each such definition says so in its doc comment.

Side effects of the Rust code (logging, actual socket connections) are
abstracted: connection establishment is modelled as allocation of a fresh
handle out of a counter threaded through the manager calls, which is exactly
the observable content the claims about connection sharing need.
-/

/-- Models `url::ParseError` as wrapped by the repository's
`ParseError::DbUrlParseError` (src/src/platform.rs line 54): the payload is the
parser diagnostic, carried as a string. -/
inductive ParseError where
  | DbUrlParseError (msg : String)
deriving DecidableEq, Repr

/-- A character allowed in a URL scheme after the first one, per the WHATWG URL
standard implemented by the `url` crate: ASCII alphanumeric, `+`, `-` or `.`. -/
def schemeChar (c : Char) : Bool :=
  c.isAlpha || c.isDigit || c == '+' || c == '-' || c == '.'

/-- A valid URL scheme is non-empty, starts with an ASCII alphabetic character
and continues with `schemeChar`s. -/
def validScheme : List Char → Bool
  | [] => false
  | c :: cs => c.isAlpha && cs.all schemeChar

/-- Split the input at the first `:`; `none` when there is no `:` at all. -/
def splitAtColon : List Char → Option (List Char × List Char)
  | [] => none
  | c :: cs =>
    if c = ':' then some ([], cs)
    else
      match splitAtColon cs with
      | some (pre, post) => some (c :: pre, post)
      | none => none

/-- The scheme as the `url` crate reports it: ASCII lower-cased. -/
def normScheme (cs : List Char) : String :=
  String.mk (cs.map Char.toLower)

/-- Models `url::Url::parse` restricted to what the platform resolver observes:
the parse succeeds exactly when the input starts with a valid scheme followed
by `:`, and on success `Url::scheme()` returns the scheme lower-cased.
Post-scheme validation performed by the real parser is not modelled; no claim
depends on it. -/
def url_parse (s : String) : Except ParseError String :=
  match splitAtColon s.toList with
  | none => .error (ParseError.DbUrlParseError "relative URL without a base")
  | some (pre, _) =>
    if validScheme pre then .ok (normScheme pre)
    else .error (ParseError.DbUrlParseError "relative URL without a base")

/-- `Platform` from src/src/platform.rs lines 34–38, with the `with-postgres`
feature compiled in. -/
inductive Platform where
  | Postgres
  | Unsupported (scheme : String)
deriving DecidableEq, Repr

/-- `impl TryFrom<&str> for Platform` (src/src/platform.rs lines 40–57): parse
the URL, then match the scheme; `"postgres"` is the one reserved scheme, any
other scheme gives `Unsupported(scheme)`, a parse failure is propagated as
`ParseError::DbUrlParseError`. -/
def Platform.try_from (s : String) : Except ParseError Platform :=
  match url_parse s with
  | .ok scheme =>
    if scheme = "postgres" then .ok Platform.Postgres
    else .ok (Platform.Unsupported scheme)
  | .error e => .error e

/-- `ConnectError` from src/src/error.rs as used by db_manager.rs: wraps the
URL parse error or the unsupported scheme. -/
inductive ConnectError where
  | ParseError (e : ParseError)
  | UnsupportedDb (scheme : String)
deriving DecidableEq, Repr

/-- The `DbError` umbrella, restricted to the variant db_manager.rs produces. -/
inductive DbError where
  | ConnectError (e : ConnectError)
deriving DecidableEq, Repr

/-- A live backend connection handle.  The real `PostgresDB` owns an `r2d2`
pool; the claims only need connection identity, so the handle is a number
allocated from a counter. -/
structure PostgresDB where
  conn : Nat
deriving DecidableEq, Repr

/-- `DBPlatform` from src/src/platform.rs lines 17–21 (with-postgres). -/
inductive DBPlatform where
  | Postgres (db : PostgresDB)
deriving DecidableEq, Repr

/-- Modelled from the spec: `pg::init_connection` (module `pg` is feature-gated
and not among the visible sources).  The spec says each `em`/`dm` call
"independently resolve[s] a fresh DBPlatform"; establishing a connection is
modelled as allocating the next fresh handle from the counter `st`. -/
def init_connection (st : Nat) : PostgresDB × Nat :=
  ({ conn := st }, st + 1)

/-- `EntityManager(pub DBPlatform)` from src/src/entity.rs as constructed in
db_manager.rs line 43. -/
structure EntityManager where
  db : DBPlatform
deriving DecidableEq, Repr

/-- `DaoManager(pub DBPlatform)` as constructed in db_manager.rs line 48. -/
structure DaoManager where
  db : DBPlatform
deriving DecidableEq, Repr

/-- `DbManager::db` (src/src/db_manager.rs lines 22–39): resolve the platform;
on `Postgres` establish a connection and wrap it, on `Unsupported(scheme)`
fail with `ConnectError::UnsupportedDb(scheme)`, on a parse error fail with
`ConnectError::ParseError(e)`.  The connection counter `st` is threaded
explicitly. -/
def DbManager.db (st : Nat) (db_url : String) : Except DbError DBPlatform × Nat :=
  match Platform.try_from db_url with
  | .ok Platform.Postgres =>
    let (conn, st') := init_connection st
    (.ok (DBPlatform.Postgres conn), st')
  | .ok (Platform.Unsupported scheme) =>
    (.error (DbError.ConnectError (ConnectError.UnsupportedDb scheme)), st)
  | .error e => (.error (DbError.ConnectError (ConnectError.ParseError e)), st)

/-- `DbManager::em` (src/src/db_manager.rs lines 41–44). -/
def DbManager.em (st : Nat) (db_url : String) : Except DbError EntityManager × Nat :=
  match DbManager.db st db_url with
  | (.ok d, st') => (.ok { db := d }, st')
  | (.error e, st') => (.error e, st')

/-- `DbManager::dm` (src/src/db_manager.rs lines 46–49). -/
def DbManager.dm (st : Nat) (db_url : String) : Except DbError DaoManager × Nat :=
  match DbManager.db st db_url with
  | (.ok d, st') => (.ok { db := d }, st')
  | (.error e, st') => (.error e, st')

/-- `TableName` from the dao crate (re-exported by src/dao/src/lib.rs), with
the fields the generated impl in src/codegen/src/table_derive.rs populates. -/
structure TableName where
  name : String
  schema : Option String
  «alias» : Option String
deriving DecidableEq, Repr

/-- `impl_to_table_name` (src/codegen/src/table_derive.rs lines 4–18): the
generated `to_table_name()` returns the type's identifier lower-cased
(`stringify!(#name).to_lowercase()`), no schema, no alias.  `ident` stands for
the `#name` the macro is instantiated at; Rust's `str::to_lowercase` on an
ASCII identifier is `String.toLower`. -/
def impl_to_table_name (ident : String) : TableName :=
  { name := ident.toLower, schema := none, «alias» := none }

/-- Modelled from the spec: an `f32` payload (dao crate `value.rs` is not
among the visible sources).  The conversions never inspect or round the float,
they move it; so the payload is carried as its IEEE-754 bit pattern. -/
structure Float32 where
  bits : Nat
deriving DecidableEq, Repr

/-- Modelled from the spec: an `f64` payload, carried as its bit pattern. -/
structure Float64 where
  bits : Nat
deriving DecidableEq, Repr

/-- Modelled from the spec: a calendar date payload (days from an epoch). -/
structure DateV where
  days : Int
deriving DecidableEq, Repr

/-- Modelled from the spec: a time-of-day payload (microseconds of day). -/
structure TimeV where
  micros : Nat
deriving DecidableEq, Repr

/-- Modelled from the spec: a timestamp payload (microseconds from an epoch). -/
structure TimestampV where
  micros : Int
deriving DecidableEq, Repr

/-- Modelled from the spec: the `Interval` value, "a signed duration
decomposed into calendar-safe components (months/days/microseconds)".  Named
`IntervalV` because Mathlib already claims `Interval`. -/
structure IntervalV where
  months : Int
  days : Int
  micros : Int
deriving DecidableEq, Repr

/-- Modelled from the spec: the dao crate's `Value`, "a closed tagged union"
with null, boolean, signed/unsigned 32/64-bit integers, 32/64-bit floating
point, text, binary blob, date/time/timestamp, an `Array` of Values and an
`Interval` variant.  Integer payloads are the mathematical integers the fixed
width types embed into; conversions only move them, so no width arithmetic is
involved. -/
inductive Value where
  | Nil
  | Bool (b : Bool)
  | Int (n : Int)
  | Bigint (n : Int)
  | Uint (n : Nat)
  | Biguint (n : Nat)
  | Float (f : Float32)
  | Double (f : Float64)
  | Text (s : String)
  | Blob (bytes : List Nat)
  | Date (d : DateV)
  | Time (t : TimeV)
  | Timestamp (ts : TimestampV)
  | Interval (i : IntervalV)
  | Array (xs : List Value)
deriving Repr

/-- The variant tag of a `Value`, as a `ConvertError` reports it. -/
def Value.variantName : Value → String
  | .Nil => "Nil"
  | .Bool _ => "Bool"
  | .Int _ => "Int"
  | .Bigint _ => "Bigint"
  | .Uint _ => "Uint"
  | .Biguint _ => "Biguint"
  | .Float _ => "Float"
  | .Double _ => "Double"
  | .Text _ => "Text"
  | .Blob _ => "Blob"
  | .Date _ => "Date"
  | .Time _ => "Time"
  | .Timestamp _ => "Timestamp"
  | .Interval _ => "Interval"
  | .Array _ => "Array"

/-- Modelled from the spec: `ConvertError`, which "names the offending
column/type".  `NotSupported` carries the actual variant and the attempted
target type; `MissingColumn` names a column absent from a Dao. -/
inductive ConvertError where
  | NotSupported (actual : String) (target : String)
  | MissingColumn (column : String)
deriving DecidableEq, Repr

/-- Element-wise fallible map, as a `Vec<T>` extraction performs it: the first
failing element fails the whole conversion. -/
def mapExcept (f : α → Except ε β) : List α → Except ε (List β)
  | [] => .ok []
  | x :: xs =>
    match f x with
    | .error e => .error e
    | .ok y =>
      match mapExcept f xs with
      | .error e => .error e
      | .ok ys => .ok (y :: ys)

/-- Modelled from the spec: `to_value` for `bool`. -/
def to_value_bool (b : Bool) : Value := Value.Bool b

/-- Modelled from the spec: `to_value` for `i32`. -/
def to_value_i32 (n : Int) : Value := Value.Int n

/-- Modelled from the spec: `to_value` for `i64`. -/
def to_value_i64 (n : Int) : Value := Value.Bigint n

/-- Modelled from the spec: `to_value` for `u32`. -/
def to_value_u32 (n : Nat) : Value := Value.Uint n

/-- Modelled from the spec: `to_value` for `u64`. -/
def to_value_u64 (n : Nat) : Value := Value.Biguint n

/-- Modelled from the spec: `to_value` for `f32`. -/
def to_value_f32 (f : Float32) : Value := Value.Float f

/-- Modelled from the spec: `to_value` for `f64`. -/
def to_value_f64 (f : Float64) : Value := Value.Double f

/-- Modelled from the spec: `to_value` for `String`. -/
def to_value_text (s : String) : Value := Value.Text s

/-- Modelled from the spec: `to_value` for `Vec<u8>` blobs. -/
def to_value_blob (bytes : List Nat) : Value := Value.Blob bytes

/-- Modelled from the spec: `to_value` for dates. -/
def to_value_date (d : DateV) : Value := Value.Date d

/-- Modelled from the spec: `to_value` for times of day. -/
def to_value_time (t : TimeV) : Value := Value.Time t

/-- Modelled from the spec: `to_value` for timestamps. -/
def to_value_timestamp (ts : TimestampV) : Value := Value.Timestamp ts

/-- Modelled from the spec: `to_value` for intervals. -/
def to_value_interval (i : IntervalV) : Value := Value.Interval i

/-- Modelled from the spec: `to_value` for `Vec<i32>`: an `Array` of the
element conversions. -/
def to_value_vec_i32 (xs : List Int) : Value := Value.Array (xs.map to_value_i32)

/-- Modelled from the spec: `to_value` for `Vec<f64>`. -/
def to_value_vec_f64 (xs : List Float64) : Value := Value.Array (xs.map to_value_f64)

/-- Modelled from the spec: `to_value` for `Vec<String>`. -/
def to_value_vec_text (xs : List String) : Value := Value.Array (xs.map to_value_text)

/-- Modelled from the spec: narrowing `from_value` to `bool`; any other
variant fails with a `ConvertError` naming the variant and the target. -/
def from_value_bool : Value → Except ConvertError Bool
  | Value.Bool b => .ok b
  | v => .error (ConvertError.NotSupported v.variantName "bool")

/-- Modelled from the spec: narrowing `from_value` to `i32`. -/
def from_value_i32 : Value → Except ConvertError Int
  | Value.Int n => .ok n
  | v => .error (ConvertError.NotSupported v.variantName "i32")

/-- Modelled from the spec: narrowing `from_value` to `i64`. -/
def from_value_i64 : Value → Except ConvertError Int
  | Value.Bigint n => .ok n
  | v => .error (ConvertError.NotSupported v.variantName "i64")

/-- Modelled from the spec: narrowing `from_value` to `u32`. -/
def from_value_u32 : Value → Except ConvertError Nat
  | Value.Uint n => .ok n
  | v => .error (ConvertError.NotSupported v.variantName "u32")

/-- Modelled from the spec: narrowing `from_value` to `u64`. -/
def from_value_u64 : Value → Except ConvertError Nat
  | Value.Biguint n => .ok n
  | v => .error (ConvertError.NotSupported v.variantName "u64")

/-- Modelled from the spec: narrowing `from_value` to `f32`. -/
def from_value_f32 : Value → Except ConvertError Float32
  | Value.Float f => .ok f
  | v => .error (ConvertError.NotSupported v.variantName "f32")

/-- Modelled from the spec: narrowing `from_value` to `f64`. -/
def from_value_f64 : Value → Except ConvertError Float64
  | Value.Double f => .ok f
  | v => .error (ConvertError.NotSupported v.variantName "f64")

/-- Modelled from the spec: narrowing `from_value` to `String`. -/
def from_value_text : Value → Except ConvertError String
  | Value.Text s => .ok s
  | v => .error (ConvertError.NotSupported v.variantName "String")

/-- Modelled from the spec: narrowing `from_value` to `Vec<u8>`. -/
def from_value_blob : Value → Except ConvertError (List Nat)
  | Value.Blob bytes => .ok bytes
  | v => .error (ConvertError.NotSupported v.variantName "Vec<u8>")

/-- Modelled from the spec: narrowing `from_value` to a date. -/
def from_value_date : Value → Except ConvertError DateV
  | Value.Date d => .ok d
  | v => .error (ConvertError.NotSupported v.variantName "Date")

/-- Modelled from the spec: narrowing `from_value` to a time of day. -/
def from_value_time : Value → Except ConvertError TimeV
  | Value.Time t => .ok t
  | v => .error (ConvertError.NotSupported v.variantName "Time")

/-- Modelled from the spec: narrowing `from_value` to a timestamp. -/
def from_value_timestamp : Value → Except ConvertError TimestampV
  | Value.Timestamp ts => .ok ts
  | v => .error (ConvertError.NotSupported v.variantName "Timestamp")

/-- Modelled from the spec: narrowing `from_value` to an interval; "Interval
arithmetic/comparison is defined only within the Interval variant, never
implicitly coerced to/from a numeric scalar". -/
def from_value_interval : Value → Except ConvertError IntervalV
  | Value.Interval i => .ok i
  | v => .error (ConvertError.NotSupported v.variantName "Interval")

/-- Modelled from the spec: narrowing `from_value` to `Vec<i32>`: "Array
variant conversion requires element-wise success; any element failure fails
the whole conversion". -/
def from_value_vec_i32 : Value → Except ConvertError (List Int)
  | Value.Array xs => mapExcept from_value_i32 xs
  | v => .error (ConvertError.NotSupported v.variantName "Vec<i32>")

/-- Modelled from the spec: narrowing `from_value` to `Vec<f64>`. -/
def from_value_vec_f64 : Value → Except ConvertError (List Float64)
  | Value.Array xs => mapExcept from_value_f64 xs
  | v => .error (ConvertError.NotSupported v.variantName "Vec<f64>")

/-- Modelled from the spec: narrowing `from_value` to `Vec<String>`. -/
def from_value_vec_text : Value → Except ConvertError (List String)
  | Value.Array xs => mapExcept from_value_text xs
  | v => .error (ConvertError.NotSupported v.variantName "Vec<String>")

/-- Modelled from the spec: `Dao`, "an ordered mapping from column-name string
to Value; keys unique within one instance; insertion order reflects the order
columns were read or written" — an insertion-ordered association list. -/
def Dao : Type := List (String × Value)

/-- Modelled from the spec: `Dao::get(column) -> Option<&Value>`. -/
def Dao.get : Dao → String → Option Value
  | [], _ => none
  | (k, v) :: rest, c => if k = c then some v else Dao.get rest c

/-- Modelled from the spec: `Dao::set(column, value)` "overwrites if present
else appends preserving insertion order". -/
def Dao.set : Dao → String → Value → Dao
  | [], c, v => [(c, v)]
  | (k, w) :: rest, c, v =>
    if k = c then (k, v) :: rest else (k, w) :: Dao.set rest c v

/-- Modelled from the spec: `Dao::keys()` "produces the manifest in insertion
order". -/
def Dao.keys (d : Dao) : List String :=
  d.map Prod.fst

/-- Modelled from the spec: `DataError`, "structural row/column mismatches".
`ColumnCountMismatch` carries the manifest length and the row's value count. -/
inductive DataError where
  | ColumnCountMismatch (expected : Nat) (actual : Nat)
deriving DecidableEq, Repr

/-- Modelled from the spec: "Building a Dao from a Rows entry requires zipping
the row's positional values with the query's column-identifier sequence;
length mismatch is a fatal construction error". -/
def dao_from_row (columns : List String) (row : List Value) : Except DataError Dao :=
  if row.length = columns.length then .ok (columns.zip row)
  else .error (DataError.ColumnCountMismatch columns.length row.length)

/-- Modelled from the spec: `Rows`, "an ordered sequence of raw backend rows
plus an ordered sequence of column identifiers describing their shape". -/
structure Rows where
  columns : List String
  data : List (List Value)

/-- Modelled from the spec: draining a `Rows` into one `Dao` per raw row. -/
def Rows.drain (rs : Rows) : Except DataError (List Dao) :=
  mapExcept (dao_from_row rs.columns) rs.data

/-- A field type a derived record can declare; its interpretation and its
generated conversions are those of the monomorphic `to_value`/`from_value`
functions above. -/
inductive FieldTy where
  | bool
  | i32
  | i64
  | f64
  | text
  | interval
deriving DecidableEq, Repr

/-- The Rust type a `FieldTy` stands for, as embedded here. -/
def FieldTy.interp : FieldTy → Type
  | .bool => Bool
  | .i32 => Int
  | .i64 => Int
  | .f64 => Float64
  | .text => String
  | .interval => IntervalV

/-- Modelled from the spec: the `to_value` call the derive emits for a field
of the given type. -/
def FieldTy.to_value : (t : FieldTy) → t.interp → Value
  | .bool => to_value_bool
  | .i32 => to_value_i32
  | .i64 => to_value_i64
  | .f64 => to_value_f64
  | .text => to_value_text
  | .interval => to_value_interval

/-- Modelled from the spec: the narrowing `from_value` call the derive emits
for a field of the given type. -/
def FieldTy.from_value : (t : FieldTy) → Value → Except ConvertError t.interp
  | .bool => from_value_bool
  | .i32 => from_value_i32
  | .i64 => from_value_i64
  | .f64 => from_value_f64
  | .text => from_value_text
  | .interval => from_value_interval

/-- A record type's declared columns: names paired with field types, in
declaration order (the manifest `ToColumnNames` would produce). -/
def ColsSpec : Type := List (String × FieldTy)

/-- The tuple of field values of a record with the given columns. -/
def RecVals : ColsSpec → Type
  | [] => PUnit
  | (_, t) :: cs => t.interp × RecVals cs

/-- Modelled from the spec: the derived `ToDao` — "given an instance of the
type, produces exactly one Dao containing one entry per declared column, in
declared order". -/
def to_dao : (cs : ColsSpec) → RecVals cs → Dao
  | [], _ => []
  | (n, t) :: cs, (v, vs) => (n, t.to_value v) :: to_dao cs vs

/-- Modelled from the spec: the derived `FromDao` — "given a Dao, attempts to
populate one instance of the type; fails with `ConvertError` naming the first
column whose Value could not be converted to the target field type, or whose
name is absent from the Dao". -/
def from_dao : (cs : ColsSpec) → Dao → Except ConvertError (RecVals cs)
  | [], _ => .ok PUnit.unit
  | (n, t) :: cs, d =>
    match Dao.get d n with
    | none => .error (ConvertError.MissingColumn n)
    | some v =>
      match t.from_value v with
      | .error e => .error e
      | .ok x =>
        match from_dao cs d with
        | .error e => .error e
        | .ok xs => .ok (x, xs)


theorem char_toNat_ofNat_valid (n : Nat) (h : n.isValidChar) : (Char.ofNat n).toNat = n := by
  simp [Char.ofNat, h, Char.ofNatAux, Char.toNat, UInt32.ofNat', UInt32.toNat]

theorem uint32_le_iff (a b : UInt32) : a ≤ b ↔ a.toNat ≤ b.toNat := Iff.rfl

theorem char_isUpper_iff (c : Char) : c.isUpper = true ↔ 65 ≤ c.toNat ∧ c.toNat ≤ 90 := by
  simp [Char.isUpper, uint32_le_iff, Char.toNat]
  exact ⟨fun ⟨h1, h2⟩ => ⟨h1, h2⟩, fun ⟨h1, h2⟩ => ⟨h1, h2⟩⟩

theorem toLower_not_upper (c : Char) : (Char.toLower c).isUpper = false := by
  unfold Char.toLower
  simp only []
  by_cases h : c.toNat ≥ 65 ∧ c.toNat ≤ 90
  · rw [if_pos h]
    have hvalid : (c.toNat + 32).isValidChar := by left; omega
    have := char_toNat_ofNat_valid (c.toNat + 32) hvalid
    rw [Bool.eq_false_iff]
    intro hup
    rw [char_isUpper_iff] at hup
    omega
  · rw [if_neg h]
    rw [Bool.eq_false_iff]
    intro hup
    rw [char_isUpper_iff] at hup
    omega

theorem schemeChar_ne_colon {c : Char} (h : schemeChar c = true) : c ≠ ':' := by
  intro heq
  subst heq
  revert h
  decide

theorem validScheme_no_colon {pre : List Char} (h : validScheme pre = true) :
    ∀ c ∈ pre, c ≠ ':' := by
  match pre with
  | [] => intro c hc; cases hc
  | c0 :: cs =>
    rw [validScheme, Bool.and_eq_true, List.all_eq_true] at h
    obtain ⟨h1, h2⟩ := h
    intro c hc
    rcases List.mem_cons.mp hc with rfl | hmem
    · intro heq
      subst heq
      revert h1
      decide
    · exact schemeChar_ne_colon (h2 c hmem)

theorem splitAtColon_append (pre rest : List Char) (h : ∀ c ∈ pre, c ≠ ':') :
    splitAtColon (pre ++ ':' :: rest) = some (pre, rest) := by
  induction pre with
  | nil => simp [splitAtColon]
  | cons c cs ih =>
    have hc : c ≠ ':' := h c (List.mem_cons_self c cs)
    have ih' := ih (fun x hx => h x (List.mem_cons_of_mem c hx))
    simp [splitAtColon, hc, ih']

theorem url_parse_of_split {s : String} {pre post : List Char}
    (h1 : splitAtColon s.toList = some (pre, post)) (h2 : validScheme pre = true) :
    url_parse s = .ok (normScheme pre) := by
  simp only [String.toList] at h1
  simp [url_parse, h1, h2]

theorem url_parse_mk (pre rest : List Char) (h : validScheme pre = true) :
    url_parse (String.mk (pre ++ ':' :: rest)) = .ok (normScheme pre) := by
  have hsplit := splitAtColon_append pre rest (validScheme_no_colon h)
  exact url_parse_of_split (by simpa [String.toList] using hsplit) h

/-- C1 (amended): for a connection URL with a valid scheme prefix, if the
lower-cased scheme is `"postgres"` resolution returns `Platform::Postgres`; if
it is any other scheme, resolution returns `Ok(Platform::Unsupported(scheme))`
where the stored scheme is the input scheme after the URL parser's ASCII
lower-casing (verbatim exactly when it is already lower-case); if the string
has no valid scheme prefix (is not a well-formed URL), resolution returns
`Err(ParseError::DbUrlParseError(..))` and never a default discriminant. -/
theorem c1_platform_resolution :
    (∀ (s : String) (pre post : List Char),
        splitAtColon s.toList = some (pre, post) → validScheme pre = true →
        normScheme pre = "postgres" → Platform.try_from s = .ok Platform.Postgres) ∧
    (∀ (s : String) (pre post : List Char),
        splitAtColon s.toList = some (pre, post) → validScheme pre = true →
        normScheme pre ≠ "postgres" →
        Platform.try_from s = .ok (Platform.Unsupported (normScheme pre))) ∧
    (∀ (s : String) (e : ParseError), url_parse s = .error e →
        Platform.try_from s = .error e) := by
  refine ⟨?_, ?_, ?_⟩
  · intro s pre post h1 h2 h3
    simp [Platform.try_from, url_parse_of_split h1 h2, h3]
  · intro s pre post h1 h2 h3
    simp [Platform.try_from, url_parse_of_split h1 h2, h3]
  · intro s e h
    simp [Platform.try_from, h]

theorem c1_platform_resolution_witness :
    Platform.try_from "mysterydb://u:p@host/db" = .ok (Platform.Unsupported "mysterydb") :=
  c1_platform_resolution.2.1 "mysterydb://u:p@host/db" "mysterydb".toList
    "//u:p@host/db".toList (by decide) (by decide) (by decide)

/-- C1 counterexample: the scheme stored in `Platform::Unsupported` is NOT
preserved verbatim from the input — the parser lower-cases it.  At the
well-formed input `"MysteryDB://u:p@host/db"` the resolver returns
`Unsupported("mysterydb")`, not `Unsupported("MysteryDB")` as the claim's
verbatim-preservation clause requires. -/
theorem c1_counterexample :
    Platform.try_from "MysteryDB://u:p@host/db" = .ok (Platform.Unsupported "mysterydb") ∧
    Platform.try_from "MysteryDB://u:p@host/db" ≠ .ok (Platform.Unsupported "MysteryDB") := by
  constructor
  · rfl
  · intro h
    rw [show Platform.try_from "MysteryDB://u:p@host/db" =
          .ok (Platform.Unsupported "mysterydb") from rfl] at h
    simp at h

/-- C10: resolution is insensitive to the letter case of the scheme, because
`Url::parse` normalises the scheme to lower case before it is matched and
before it is stored in `Platform::Unsupported`: two well-formed URLs that
differ only in the case of their scheme resolve identically, and a scheme
that lower-cases to `"postgres"` resolves to the Postgres discriminant. -/
theorem c10_scheme_case_insensitive :
    (∀ (pre₁ pre₂ rest : List Char),
        validScheme pre₁ = true → validScheme pre₂ = true →
        pre₁.map Char.toLower = pre₂.map Char.toLower →
        Platform.try_from (String.mk (pre₁ ++ ':' :: rest)) =
          Platform.try_from (String.mk (pre₂ ++ ':' :: rest))) ∧
    (∀ (pre rest : List Char), validScheme pre = true →
        pre.map Char.toLower = "postgres".toList →
        Platform.try_from (String.mk (pre ++ ':' :: rest)) = .ok Platform.Postgres) := by
  constructor
  · intro p1 p2 rest h1 h2 hmap
    have e1 := url_parse_mk p1 rest h1
    have e2 := url_parse_mk p2 rest h2
    have hnorm : normScheme p1 = normScheme p2 := congrArg String.mk hmap
    simp [Platform.try_from, e1, e2, hnorm]
  · intro pre rest h hmap
    have e := url_parse_mk pre rest h
    have hnorm : normScheme pre = "postgres" := by
      unfold normScheme
      rw [hmap]
      rfl
    simp [Platform.try_from, e, hnorm]

theorem c10_scheme_case_insensitive_witness :
    Platform.try_from (String.mk ("POSTGRES".toList ++ ':' :: "//h/db".toList)) =
      .ok Platform.Postgres :=
  c10_scheme_case_insensitive.2 "POSTGRES".toList "//h/db".toList (by decide) (by decide)

/-- C2: for every connection URL, `DbManager::em` and `DbManager::dm` fail
with `DbError::ConnectError(ConnectError::UnsupportedDb(scheme))` when
platform resolution yields `Platform::Unsupported(scheme)`, and with
`DbError::ConnectError(ConnectError::ParseError(e))` when resolution fails
with a `ParseError` — the underlying cause is carried inside the
`ConnectError` in both cases. -/
theorem c2_connect_error_cause (url : String) (st : Nat) :
    (∀ scheme, Platform.try_from url = .ok (Platform.Unsupported scheme) →
        (DbManager.em st url).1 =
          .error (DbError.ConnectError (ConnectError.UnsupportedDb scheme)) ∧
        (DbManager.dm st url).1 =
          .error (DbError.ConnectError (ConnectError.UnsupportedDb scheme))) ∧
    (∀ e, Platform.try_from url = .error e →
        (DbManager.em st url).1 =
          .error (DbError.ConnectError (ConnectError.ParseError e)) ∧
        (DbManager.dm st url).1 =
          .error (DbError.ConnectError (ConnectError.ParseError e))) := by
  constructor
  · intro scheme h
    constructor <;> simp [DbManager.em, DbManager.dm, DbManager.db, h]
  · intro e h
    constructor <;> simp [DbManager.em, DbManager.dm, DbManager.db, h]

theorem c2_connect_error_cause_witness :
    (DbManager.em 0 "mysterydb://u:p@host/db").1 =
      .error (DbError.ConnectError (ConnectError.UnsupportedDb "mysterydb")) ∧
    (DbManager.dm 0 "not a url").1 =
      .error (DbError.ConnectError (ConnectError.ParseError
        (ParseError.DbUrlParseError "relative URL without a base"))) :=
  ⟨((c2_connect_error_cause "mysterydb://u:p@host/db" 0).1 "mysterydb" rfl).1,
   ((c2_connect_error_cause "not a url" 0).2
      (ParseError.DbUrlParseError "relative URL without a base") rfl).2⟩

/-- C9: `DbManager::em` and `DbManager::dm` each run the same resolution
(`DbManager::db`), so they fail under exactly the same conditions with the
same error; and each successful call allocates its own fresh backend
connection, so an `EntityManager` and a `DaoManager` obtained in sequence
from the same `DbManager` never hold the same `DBPlatform` handle. -/
theorem c9_em_dm_independent (url : String) (st : Nat) :
    (∀ e, ((DbManager.em st url).1 = .error e ↔ (DbManager.dm st url).1 = .error e)) ∧
    (∀ (m : EntityManager) (st' : Nat) (n : DaoManager) (st'' : Nat),
        DbManager.em st url = (.ok m, st') →
        DbManager.dm st' url = (.ok n, st'') →
        m.db ≠ n.db) := by
  constructor
  · intro e
    cases h : Platform.try_from url with
    | ok p =>
      cases p <;> simp [DbManager.em, DbManager.dm, DbManager.db, h, init_connection]
    | error e' =>
      simp [DbManager.em, DbManager.dm, DbManager.db, h]
  · intro m st' n st'' hem hdm
    cases h : Platform.try_from url with
    | ok p =>
      cases p with
      | Postgres =>
        simp [DbManager.em, DbManager.dm, DbManager.db, h, init_connection] at hem hdm
        obtain ⟨hm, hst'⟩ := hem
        subst hst'
        obtain ⟨hn, _⟩ := hdm
        subst hm
        subst hn
        simp
      | Unsupported scheme =>
        simp [DbManager.em, DbManager.db, h] at hem
    | error e' =>
      simp [DbManager.em, DbManager.db, h] at hem

theorem c9_em_dm_independent_witness :
    EntityManager.db { db := DBPlatform.Postgres { conn := 0 } } ≠
      DaoManager.db { db := DBPlatform.Postgres { conn := 1 } } :=
  (c9_em_dm_independent "postgres://u:p@host/db" 0).2
    { db := DBPlatform.Postgres { conn := 0 } } 1
    { db := DBPlatform.Postgres { conn := 1 } } 2 rfl rfl

/-- C8: for a type with the derived `ToTableName` and no override, the
generated `to_table_name()` returns a `TableName` whose name is the type's
identifier lower-cased (hence containing no upper-case letter), whose schema
is `None` and whose alias is `None`. -/
theorem c8_derived_table_name (ident : String) :
    (impl_to_table_name ident).name = ident.toLower ∧
    (impl_to_table_name ident).schema = none ∧
    (impl_to_table_name ident).«alias» = none ∧
    ∀ c ∈ (impl_to_table_name ident).name.data, c.isUpper = false := by
  refine ⟨rfl, rfl, rfl, ?_⟩
  intro c hc
  simp only [impl_to_table_name, String.toLower, String.map_eq] at hc
  obtain ⟨c0, _, rfl⟩ := List.mem_map.mp hc
  exact toLower_not_upper c0

theorem c8_derived_table_name_witness :
    (impl_to_table_name "Actor").name = "Actor".toLower ∧
    (impl_to_table_name "Actor").schema = none ∧
    (impl_to_table_name "Actor").«alias» = none :=
  ⟨(c8_derived_table_name "Actor").1, (c8_derived_table_name "Actor").2.1,
   (c8_derived_table_name "Actor").2.2.1⟩

theorem mapExcept_map_ok {α β ε : Type} (f : α → Except ε β) (g : β → α)
    (h : ∀ x, f (g x) = .ok x) (xs : List β) :
    mapExcept f (xs.map g) = .ok xs := by
  induction xs with
  | nil => rfl
  | cons x xs ih => simp [mapExcept, h, ih]

theorem mapExcept_error_of_mem {α β ε : Type} {f : α → Except ε β} {xs : List α} {x : α}
    (hx : x ∈ xs) {e : ε} (hf : f x = .error e) :
    ∃ e', mapExcept f xs = .error e' := by
  induction xs with
  | nil => cases hx
  | cons a as ih =>
    rcases List.mem_cons.mp hx with rfl | hmem
    · exact ⟨e, by simp [mapExcept, hf]⟩
    · cases ha : f a with
      | error e1 => exact ⟨e1, by simp [mapExcept, ha]⟩
      | ok y =>
        obtain ⟨e', he'⟩ := ih hmem
        exact ⟨e', by simp [mapExcept, ha, he']⟩

theorem mapExcept_ok_mem {α β ε : Type} {f : α → Except ε β} {xs : List α} {ys : List β}
    (h : mapExcept f xs = .ok ys) : ∀ x ∈ xs, ∃ y, f x = .ok y := by
  induction xs generalizing ys with
  | nil => intro x hx; cases hx
  | cons a as ih =>
    intro x hx
    cases ha : f a with
    | error e =>
      simp [mapExcept, ha] at h
    | ok y =>
      cases hrec : mapExcept f as with
      | error e =>
        simp [mapExcept, ha, hrec] at h
      | ok ys' =>
        rcases List.mem_cons.mp hx with rfl | hmem
        · exact ⟨y, ha⟩
        · exact ih hrec x hmem

/-- C4: `to_value` followed by the narrowing `from_value` back to the original
application type is the identity for every supported kind: booleans, signed
and unsigned 32/64-bit integers, 32/64-bit floats, text, blobs, date, time,
timestamp, intervals, and arrays of scalars. -/
theorem c4_to_value_round_trip :
    (∀ b, from_value_bool (to_value_bool b) = .ok b) ∧
    (∀ n, from_value_i32 (to_value_i32 n) = .ok n) ∧
    (∀ n, from_value_i64 (to_value_i64 n) = .ok n) ∧
    (∀ n, from_value_u32 (to_value_u32 n) = .ok n) ∧
    (∀ n, from_value_u64 (to_value_u64 n) = .ok n) ∧
    (∀ f, from_value_f32 (to_value_f32 f) = .ok f) ∧
    (∀ f, from_value_f64 (to_value_f64 f) = .ok f) ∧
    (∀ s, from_value_text (to_value_text s) = .ok s) ∧
    (∀ bs, from_value_blob (to_value_blob bs) = .ok bs) ∧
    (∀ d, from_value_date (to_value_date d) = .ok d) ∧
    (∀ t, from_value_time (to_value_time t) = .ok t) ∧
    (∀ ts, from_value_timestamp (to_value_timestamp ts) = .ok ts) ∧
    (∀ i, from_value_interval (to_value_interval i) = .ok i) ∧
    (∀ xs, from_value_vec_i32 (to_value_vec_i32 xs) = .ok xs) ∧
    (∀ xs, from_value_vec_f64 (to_value_vec_f64 xs) = .ok xs) ∧
    (∀ xs, from_value_vec_text (to_value_vec_text xs) = .ok xs) :=
  ⟨fun _ => rfl, fun _ => rfl, fun _ => rfl, fun _ => rfl, fun _ => rfl, fun _ => rfl,
   fun _ => rfl, fun _ => rfl, fun _ => rfl, fun _ => rfl, fun _ => rfl, fun _ => rfl,
   fun _ => rfl,
   fun xs => mapExcept_map_ok from_value_i32 to_value_i32 (fun _ => rfl) xs,
   fun xs => mapExcept_map_ok from_value_f64 to_value_f64 (fun _ => rfl) xs,
   fun xs => mapExcept_map_ok from_value_text to_value_text (fun _ => rfl) xs⟩

/-- C7: a narrowing conversion applied to a `Value` of any other variant fails
with a `ConvertError` naming both the actual variant and the attempted target
type; and an `Array` conversion fails as soon as any element fails, succeeding
only when every element converts. -/
theorem c7_convert_error_naming :
    (∀ v, Value.variantName v ≠ "Bool" →
        from_value_bool v = .error (ConvertError.NotSupported v.variantName "bool")) ∧
    (∀ v, Value.variantName v ≠ "Int" →
        from_value_i32 v = .error (ConvertError.NotSupported v.variantName "i32")) ∧
    (∀ v, Value.variantName v ≠ "Bigint" →
        from_value_i64 v = .error (ConvertError.NotSupported v.variantName "i64")) ∧
    (∀ v, Value.variantName v ≠ "Uint" →
        from_value_u32 v = .error (ConvertError.NotSupported v.variantName "u32")) ∧
    (∀ v, Value.variantName v ≠ "Biguint" →
        from_value_u64 v = .error (ConvertError.NotSupported v.variantName "u64")) ∧
    (∀ v, Value.variantName v ≠ "Float" →
        from_value_f32 v = .error (ConvertError.NotSupported v.variantName "f32")) ∧
    (∀ v, Value.variantName v ≠ "Double" →
        from_value_f64 v = .error (ConvertError.NotSupported v.variantName "f64")) ∧
    (∀ v, Value.variantName v ≠ "Text" →
        from_value_text v = .error (ConvertError.NotSupported v.variantName "String")) ∧
    (∀ v, Value.variantName v ≠ "Blob" →
        from_value_blob v = .error (ConvertError.NotSupported v.variantName "Vec<u8>")) ∧
    (∀ v, Value.variantName v ≠ "Date" →
        from_value_date v = .error (ConvertError.NotSupported v.variantName "Date")) ∧
    (∀ v, Value.variantName v ≠ "Time" →
        from_value_time v = .error (ConvertError.NotSupported v.variantName "Time")) ∧
    (∀ v, Value.variantName v ≠ "Timestamp" →
        from_value_timestamp v = .error (ConvertError.NotSupported v.variantName "Timestamp")) ∧
    (∀ v, Value.variantName v ≠ "Interval" →
        from_value_interval v = .error (ConvertError.NotSupported v.variantName "Interval")) ∧
    (∀ xs x, x ∈ xs → ∀ e, from_value_i32 x = .error e →
        ∃ e', from_value_vec_i32 (Value.Array xs) = .error e') ∧
    (∀ xs ys, from_value_vec_i32 (Value.Array xs) = .ok ys →
        ∀ x ∈ xs, ∃ y, from_value_i32 x = .ok y) := by
  refine ⟨?_, ?_, ?_, ?_, ?_, ?_, ?_, ?_, ?_, ?_, ?_, ?_, ?_, ?_, ?_⟩
  case _ => intro v h; cases v <;> first | rfl | exact absurd rfl h
  case _ => intro v h; cases v <;> first | rfl | exact absurd rfl h
  case _ => intro v h; cases v <;> first | rfl | exact absurd rfl h
  case _ => intro v h; cases v <;> first | rfl | exact absurd rfl h
  case _ => intro v h; cases v <;> first | rfl | exact absurd rfl h
  case _ => intro v h; cases v <;> first | rfl | exact absurd rfl h
  case _ => intro v h; cases v <;> first | rfl | exact absurd rfl h
  case _ => intro v h; cases v <;> first | rfl | exact absurd rfl h
  case _ => intro v h; cases v <;> first | rfl | exact absurd rfl h
  case _ => intro v h; cases v <;> first | rfl | exact absurd rfl h
  case _ => intro v h; cases v <;> first | rfl | exact absurd rfl h
  case _ => intro v h; cases v <;> first | rfl | exact absurd rfl h
  case _ => intro v h; cases v <;> first | rfl | exact absurd rfl h
  case _ =>
    intro xs x hx e hf
    exact mapExcept_error_of_mem hx hf
  case _ =>
    intro xs ys h
    exact mapExcept_ok_mem h

theorem c7_convert_error_naming_witness :
    from_value_i32 (Value.Text "x") = .error (ConvertError.NotSupported "Text" "i32") :=
  c7_convert_error_naming.2.1 (Value.Text "x") (by decide)

theorem dao_get_cons (k : String) (w : Value) (d : Dao) (c : String) :
    Dao.get ((k, w) :: d) c = if k = c then some w else Dao.get d c := rfl

theorem dao_set_cons (k : String) (w : Value) (d : Dao) (c : String) (v : Value) :
    Dao.set ((k, w) :: d) c v =
      if k = c then (k, v) :: d else (k, w) :: Dao.set d c v := rfl

theorem dao_keys_cons (k : String) (w : Value) (d : Dao) :
    Dao.keys ((k, w) :: d) = k :: Dao.keys d := rfl

theorem dao_get_set_same (d : Dao) (c : String) (v : Value) :
    Dao.get (Dao.set d c v) c = some v := by
  induction d with
  | nil => simp [Dao.set, Dao.get]
  | cons kv rest ih =>
    obtain ⟨k, w⟩ := kv
    by_cases hk : k = c
    · simp [dao_set_cons, dao_get_cons, hk]
    · simp [dao_set_cons, dao_get_cons, hk, ih]

theorem dao_get_set_other (d : Dao) (c : String) (v : Value) (c' : String) (h : c' ≠ c) :
    Dao.get (Dao.set d c v) c' = Dao.get d c' := by
  induction d with
  | nil =>
    have hcc : ¬(c = c') := fun he => h he.symm
    simp [Dao.set, Dao.get, hcc]
  | cons kv rest ih =>
    obtain ⟨k, w⟩ := kv
    by_cases hk : k = c
    · subst hk
      have hcc : ¬(k = c') := fun he => h (he ▸ rfl)
      simp [dao_set_cons, dao_get_cons, hcc]
    · simp [dao_set_cons, dao_get_cons, hk, ih]

theorem dao_keys_set_mem (d : Dao) (c : String) (v : Value) (h : c ∈ Dao.keys d) :
    Dao.keys (Dao.set d c v) = Dao.keys d := by
  induction d with
  | nil => cases h
  | cons kv rest ih =>
    obtain ⟨k, w⟩ := kv
    by_cases hk : k = c
    · simp [dao_set_cons, dao_keys_cons, hk]
    · have hmem : c ∈ Dao.keys rest := by
        rw [dao_keys_cons] at h
        rcases List.mem_cons.mp h with he | hm
        · exact absurd he.symm hk
        · exact hm
      rw [dao_set_cons, if_neg hk, dao_keys_cons, dao_keys_cons, ih hmem]

theorem dao_keys_set_not_mem (d : Dao) (c : String) (v : Value) (h : c ∉ Dao.keys d) :
    Dao.keys (Dao.set d c v) = Dao.keys d ++ [c] := by
  induction d with
  | nil => simp [Dao.set, Dao.keys]
  | cons kv rest ih =>
    obtain ⟨k, w⟩ := kv
    rw [dao_keys_cons] at h
    have hk : k ≠ c := fun he => h (he ▸ List.mem_cons_self k (Dao.keys rest))
    have hrest : c ∉ Dao.keys rest := fun hm => h (List.mem_cons_of_mem k hm)
    rw [dao_set_cons, if_neg hk, dao_keys_cons, dao_keys_cons, ih hrest]
    rfl

theorem dao_get_isSome_iff (d : Dao) (c : String) :
    (Dao.get d c).isSome = true ↔ c ∈ Dao.keys d := by
  induction d with
  | nil => simp [Dao.get, Dao.keys]
  | cons kv rest ih =>
    obtain ⟨k, w⟩ := kv
    rw [dao_get_cons, dao_keys_cons]
    by_cases hk : k = c
    · simp [hk]
    · rw [if_neg hk, ih]
      constructor
      · intro hm
        exact List.mem_cons_of_mem _ hm
      · intro hm
        rcases List.mem_cons.mp hm with he | hm'
        · exact absurd he.symm hk
        · exact hm'

/-- C6: `Dao::set` overwrites an existing entry in place and otherwise appends
at the end, leaving every other entry (and the insertion order) untouched;
`Dao::get` returns `Some` exactly for present columns; `Dao::keys` lists the
columns in insertion order. -/
theorem c6_dao_contract (d : Dao) (c : String) (v : Value) :
    Dao.get (Dao.set d c v) c = some v ∧
    (∀ c', c' ≠ c → Dao.get (Dao.set d c v) c' = Dao.get d c') ∧
    (c ∈ Dao.keys d → Dao.keys (Dao.set d c v) = Dao.keys d) ∧
    (c ∉ Dao.keys d → Dao.keys (Dao.set d c v) = Dao.keys d ++ [c]) ∧
    ((Dao.get d c).isSome = true ↔ c ∈ Dao.keys d) :=
  ⟨dao_get_set_same d c v,
   fun c' h => dao_get_set_other d c v c' h,
   fun h => dao_keys_set_mem d c v h,
   fun h => dao_keys_set_not_mem d c v h,
   dao_get_isSome_iff d c⟩

theorem c6_dao_contract_witness :
    Dao.keys (Dao.set [("actor_id", Value.Int 1)] "first_name" (Value.Text "Tom")) =
      Dao.keys [("actor_id", Value.Int 1)] ++ ["first_name"] :=
  (c6_dao_contract [("actor_id", Value.Int 1)] "first_name" (Value.Text "Tom")).2.2.2.1
    (by decide)

/-- C5: building a `Dao` from a `Rows` entry succeeds exactly when the row's
positional value count equals the column manifest's length, in which case the
resulting Dao's `keys()` is the manifest in the same order; on a mismatch it
fails with `DataError::ColumnCountMismatch` and no Dao is produced. -/
theorem c5_dao_from_row (columns : List String) (row : List Value) :
    (row.length = columns.length →
        dao_from_row columns row = .ok (columns.zip row) ∧
        Dao.keys (columns.zip row) = columns) ∧
    (row.length ≠ columns.length →
        dao_from_row columns row =
          .error (DataError.ColumnCountMismatch columns.length row.length)) := by
  constructor
  · intro h
    refine ⟨by simp [dao_from_row, h], ?_⟩
    unfold Dao.keys
    exact List.map_fst_zip columns row (le_of_eq h.symm)
  · intro h
    simp [dao_from_row, h]

theorem c5_dao_from_row_witness :
    dao_from_row ["actor_id", "first_name"] [Value.Int 1, Value.Text "Tom"] =
      .ok (["actor_id", "first_name"].zip [Value.Int 1, Value.Text "Tom"]) ∧
    Dao.keys (["actor_id", "first_name"].zip [Value.Int 1, Value.Text "Tom"]) =
      ["actor_id", "first_name"] :=
  (c5_dao_from_row ["actor_id", "first_name"] [Value.Int 1, Value.Text "Tom"]).1 rfl

theorem fieldTy_round_trip (t : FieldTy) (x : t.interp) :
    t.from_value (t.to_value x) = .ok x := by
  cases t <;> rfl

theorem from_dao_skip {cs : ColsSpec} {n : String} {w : Value} {d : Dao}
    (h : n ∉ cs.map Prod.fst) :
    from_dao cs ((n, w) :: d) = from_dao cs d := by
  induction cs with
  | nil => rfl
  | cons p cs ih =>
    obtain ⟨m, t⟩ := p
    rw [List.map_cons] at h
    have h1 : n ≠ m := fun he => h (he ▸ List.mem_cons_self m (cs.map Prod.fst))
    have h2 : n ∉ cs.map Prod.fst := fun hm => h (List.mem_cons_of_mem m hm)
    unfold from_dao
    rw [dao_get_cons, if_neg h1, ih h2]

/-- C3: for every record type with the derived `ToDao`/`FromDao` pair (a
column specification with distinct column names) and every record value,
`FromDao(ToDao(R))` succeeds and reconstructs a value equal to `R`. -/
theorem c3_record_round_trip (cs : ColsSpec) (h : (cs.map Prod.fst).Nodup)
    (r : RecVals cs) : from_dao cs (to_dao cs r) = .ok r := by
  induction cs with
  | nil => rfl
  | cons p cs ih =>
    obtain ⟨n, t⟩ := p
    obtain ⟨v, vs⟩ := r
    rw [List.map_cons, List.nodup_cons] at h
    obtain ⟨hn, hnd⟩ := h
    show from_dao ((n, t) :: cs) ((n, t.to_value v) :: to_dao cs vs) = .ok (v, vs)
    unfold from_dao
    rw [dao_get_cons, if_pos rfl]
    simp only [fieldTy_round_trip t v, from_dao_skip hn, ih hnd vs]

/-- The `Actor` record of the crate's own doc example, as a column spec. -/
def actorCols : ColsSpec := [("actor_id", FieldTy.i32), ("first_name", FieldTy.text)]

/-- A concrete `Actor` value: `{actor_id: 1, first_name: "Tom"}`. -/
def actorRec : RecVals actorCols := ((1 : Int), ("Tom", PUnit.unit))

theorem c3_record_round_trip_witness :
    from_dao actorCols (to_dao actorCols actorRec) = .ok actorRec :=
  c3_record_round_trip actorCols (by decide) actorRec
